import Mathlib

/-!
Shallow embedding of the `libstat-rs` technical-analysis library.

The Rust source consists of a shared error enum (`src/analysis/mod.rs`),
three momentum indicators over `f64` scalars (`src/analysis/momentum.rs`)
and two trend indicators over `f64` slices (`src/analysis/trend.rs`).

Rust `f64` values are modelled by the type `FP`: either NaN or a finite
value, finite values being exact rationals.  The IEEE comparison semantics
relevant to the code is kept: every ordered comparison involving NaN is
false, `NaN == x` is false, and arithmetic propagates NaN.  Infinities and
rounding are not modelled; on the inputs the claims quantify over, the
source performs no overflowing or inexact-critical operation whose rounding
a claim depends on.
-/

/-- The `AnalysisError` enum from `src/analysis/mod.rs`. -/
inductive AnalysisError where
  | GainLessThanZero
  | LossLessThanZero
  | CloseGreaterThanHigh
  | CloseLessThanLow
  | HighLessThanLow
  | SliceIsEmpty
deriving DecidableEq, Repr

/-- The specialised `Result` alias from `src/analysis/mod.rs`. -/
abbrev AResult (α : Type) := Except AnalysisError α

instance {ε α : Type} [DecidableEq ε] [DecidableEq α] : DecidableEq (Except ε α) := fun a b =>
  match a, b with
  | .error x, .error y =>
      if h : x = y then .isTrue (by rw [h]) else .isFalse (by simp [h])
  | .ok x, .ok y =>
      if h : x = y then .isTrue (by rw [h]) else .isFalse (by simp [h])
  | .error _, .ok _ => .isFalse (by simp)
  | .ok _, .error _ => .isFalse (by simp)

/-- Model of a Rust `f64`: NaN or a finite value (an exact rational). -/
inductive FP where
  | nan : FP
  | fin : ℚ → FP
deriving DecidableEq, Repr

namespace FP

/-- `f64` addition: NaN propagates, finite values add exactly. -/
def add : FP → FP → FP
  | .fin a, .fin b => .fin (a + b)
  | _, _ => .nan

/-- `f64` subtraction: NaN propagates, finite values subtract exactly. -/
def sub : FP → FP → FP
  | .fin a, .fin b => .fin (a - b)
  | _, _ => .nan

/-- `f64` multiplication: NaN propagates, finite values multiply exactly. -/
def mul : FP → FP → FP
  | .fin a, .fin b => .fin (a * b)
  | _, _ => .nan

/-- `f64` division: NaN propagates; division by zero is not a finite value
(the source never divides by zero on non-NaN operands, every division being
guarded by a preceding zero test). -/
def div : FP → FP → FP
  | .fin a, .fin b => if b = 0 then .nan else .fin (a / b)
  | _, _ => .nan

/-- IEEE `<`: false whenever either operand is NaN. -/
def lt : FP → FP → Bool
  | .fin a, .fin b => decide (a < b)
  | _, _ => false

/-- IEEE `>`: false whenever either operand is NaN. -/
def gt : FP → FP → Bool
  | .fin a, .fin b => decide (b < a)
  | _, _ => false

/-- IEEE `==`: false whenever either operand is NaN. -/
def beq : FP → FP → Bool
  | .fin a, .fin b => decide (a = b)
  | _, _ => false

instance : Add FP := ⟨FP.add⟩
instance : Sub FP := ⟨FP.sub⟩
instance : Mul FP := ⟨FP.mul⟩
instance : Div FP := ⟨FP.div⟩

theorem add_def (a b : FP) : a + b = FP.add a b := rfl
theorem sub_def (a b : FP) : a - b = FP.sub a b := rfl
theorem mul_def (a b : FP) : a * b = FP.mul a b := rfl
theorem div_def (a b : FP) : a / b = FP.div a b := rfl

end FP

/-- `relative_strength_index` from `src/analysis/momentum.rs` (lines 26-37):
rejects `gain < 0.`, then `loss < 0.`; then matches `loss` against the
pattern `0.` (returning `100.`) and otherwise returns
`100. - 100. / (1. + gain / loss)`. -/
def relative_strength_index (gain loss : FP) : AResult FP :=
  if FP.lt gain (FP.fin 0) then .error .GainLessThanZero
  else if FP.lt loss (FP.fin 0) then .error .LossLessThanZero
  else if FP.beq loss (FP.fin 0) then .ok (FP.fin 100)
  else .ok (FP.fin 100 - FP.fin 100 / (FP.fin 1 + gain / loss))

/-- `stochastic_oscillator` from `src/analysis/momentum.rs` (lines 70-84):
rejects `high < low`, then `close > high`, then `close < low`; then matches
on `high == low`, returning `50.` when true and
`100. * (close - low) / (high - low)` otherwise. -/
def stochastic_oscillator (close high low : FP) : AResult FP :=
  if FP.lt high low then .error .HighLessThanLow
  else if FP.gt close high then .error .CloseGreaterThanHigh
  else if FP.lt close low then .error .CloseLessThanLow
  else if FP.beq high low then .ok (FP.fin 50)
  else .ok (FP.fin 100 * (close - low) / (high - low))

/-- `williams_percent_r` from `src/analysis/momentum.rs` (lines 114-128):
same validation sequence as `stochastic_oscillator`; then matches on
`high == low`, returning `-50.` when true and
`-100. * (high - close) / (high - low)` otherwise. -/
def williams_percent_r (close high low : FP) : AResult FP :=
  if FP.lt high low then .error .HighLessThanLow
  else if FP.gt close high then .error .CloseGreaterThanHigh
  else if FP.lt close low then .error .CloseLessThanLow
  else if FP.beq high low then .ok (FP.fin (-50))
  else .ok (FP.fin (-100) * (high - close) / (high - low))

/-- `simple_moving_average` from `src/analysis/trend.rs` (lines 62-68):
rejects the empty slice, otherwise returns
`slice.iter().fold(0., |sum, x| sum + x) / length as f64`. -/
def simple_moving_average (slice : List FP) : AResult FP :=
  if slice.length = 0 then .error .SliceIsEmpty
  else .ok (slice.foldl (fun sum x => sum + x) (FP.fin 0) / FP.fin (slice.length : ℚ))

/-- `exponential_moving_average` from `src/analysis/trend.rs` (lines 32-41):
rejects the empty slice; with `old = Some ema` returns
`(slice[length-1] - ema) * 2. / (1. + length as f64) + ema`, and with
`old = None` delegates to `simple_moving_average`.  `slice[length-1]` is the
last element; the `getD` default is unreachable since the slice is
non-empty. -/
def exponential_moving_average (slice : List FP) (old : Option FP) : AResult FP :=
  if slice.length = 0 then .error .SliceIsEmpty
  else match old with
    | some ema =>
        .ok ((slice.getLast?.getD FP.nan - ema) * FP.fin 2
              / (FP.fin 1 + FP.fin (slice.length : ℚ)) + ema)
    | none => simple_moving_average slice

theorem fin_add_fin (a b : ℚ) : FP.fin a + FP.fin b = FP.fin (a + b) := rfl
theorem fin_sub_fin (a b : ℚ) : FP.fin a - FP.fin b = FP.fin (a - b) := rfl
theorem fin_mul_fin (a b : ℚ) : FP.fin a * FP.fin b = FP.fin (a * b) := rfl
theorem fin_div_fin (a b : ℚ) :
    FP.fin a / FP.fin b = if b = 0 then FP.nan else FP.fin (a / b) := rfl
theorem lt_fin_fin (a b : ℚ) : FP.lt (FP.fin a) (FP.fin b) = decide (a < b) := rfl
theorem gt_fin_fin (a b : ℚ) : FP.gt (FP.fin a) (FP.fin b) = decide (b < a) := rfl
theorem beq_fin_fin (a b : ℚ) : FP.beq (FP.fin a) (FP.fin b) = decide (a = b) := rfl

example : relative_strength_index (FP.fin 60) (FP.fin 20) = .ok (FP.fin 75) := by
  norm_num [relative_strength_index, lt_fin_fin, beq_fin_fin, fin_div_fin, fin_add_fin,
    fin_sub_fin]
example : stochastic_oscillator (FP.fin 80) (FP.fin 90) (FP.fin 50) = .ok (FP.fin 75) := by
  norm_num [stochastic_oscillator, lt_fin_fin, gt_fin_fin, beq_fin_fin, fin_div_fin,
    fin_add_fin, fin_sub_fin, fin_mul_fin]
example : williams_percent_r (FP.fin 80) (FP.fin 90) (FP.fin 50) = .ok (FP.fin (-25)) := by
  norm_num [williams_percent_r, lt_fin_fin, gt_fin_fin, beq_fin_fin, fin_div_fin,
    fin_add_fin, fin_sub_fin, fin_mul_fin]
example :
    simple_moving_average [FP.fin (7/2), FP.fin (17/5), FP.fin (33/10), FP.fin (18/5),
      FP.fin (37/10)] = .ok (FP.fin (7/2)) := by
  norm_num [simple_moving_average, fin_add_fin, fin_div_fin]
example :
    exponential_moving_average [FP.fin (7/2), FP.fin (17/5), FP.fin (33/10), FP.fin (18/5),
      FP.fin (37/10)] (some (FP.fin (17/5))) = .ok (FP.fin (7/2)) := by
  norm_num [exponential_moving_average, fin_add_fin, fin_div_fin, fin_sub_fin, fin_mul_fin]
example : simple_moving_average [] = .error .SliceIsEmpty := by rfl
example : relative_strength_index (FP.fin (-1)) (FP.fin 0) = .error .GainLessThanZero := by
  norm_num [relative_strength_index, lt_fin_fin]
example : relative_strength_index (FP.fin 0) (FP.fin (-1)) = .error .LossLessThanZero := by
  norm_num [relative_strength_index, lt_fin_fin]
example : stochastic_oscillator (FP.fin 100) (FP.fin 0) (FP.fin 100)
    = .error .HighLessThanLow := by
  norm_num [stochastic_oscillator, lt_fin_fin]

/-- Case analysis of `relative_strength_index` on finite inputs, shared by
the theorems below. -/
theorem rsi_cases (gain loss : ℚ) :
    (gain < 0 →
      relative_strength_index (FP.fin gain) (FP.fin loss) = .error .GainLessThanZero) ∧
    (0 ≤ gain → loss < 0 →
      relative_strength_index (FP.fin gain) (FP.fin loss) = .error .LossLessThanZero) ∧
    (0 ≤ gain → loss = 0 →
      relative_strength_index (FP.fin gain) (FP.fin loss) = .ok (FP.fin 100)) ∧
    (0 ≤ gain → 0 ≤ loss → loss ≠ 0 →
      relative_strength_index (FP.fin gain) (FP.fin loss)
        = .ok (FP.fin (100 - 100 / (1 + gain / loss)))) := by
  refine ⟨fun h => ?_, fun hg hl => ?_, fun hg hl => ?_, fun hg hl hne => ?_⟩
  · simp [relative_strength_index, lt_fin_fin, h]
  · simp [relative_strength_index, lt_fin_fin, not_lt.mpr hg, hl]
  · simp [relative_strength_index, lt_fin_fin, beq_fin_fin, not_lt.mpr hg, hl]
  · have hd : (1 : ℚ) + gain / loss ≠ 0 := by positivity
    simp [relative_strength_index, lt_fin_fin, beq_fin_fin, not_lt.mpr hg, not_lt.mpr hl,
      hne, fin_div_fin, fin_add_fin, fin_sub_fin, hd]

/-- C1: `relative_strength_index(gain, loss)` first rejects `gain < 0` with
`GainLessThanZero`, then rejects `loss < 0` with `LossLessThanZero` (in that
order), and otherwise returns exactly 100 when `loss == 0` and
`100 - 100 / (1 + gain / loss)` when `loss ≠ 0`. -/
theorem rsi_spec (gain loss : ℚ) :
    (gain < 0 →
      relative_strength_index (FP.fin gain) (FP.fin loss) = .error .GainLessThanZero) ∧
    (0 ≤ gain → loss < 0 →
      relative_strength_index (FP.fin gain) (FP.fin loss) = .error .LossLessThanZero) ∧
    (0 ≤ gain → loss = 0 →
      relative_strength_index (FP.fin gain) (FP.fin loss) = .ok (FP.fin 100)) ∧
    (0 ≤ gain → 0 ≤ loss → loss ≠ 0 →
      relative_strength_index (FP.fin gain) (FP.fin loss)
        = .ok (FP.fin (100 - 100 / (1 + gain / loss)))) :=
  rsi_cases gain loss

/-- Witness for C1 at concrete inputs exercising all four branches. -/
theorem rsi_spec_witness :
    relative_strength_index (FP.fin (-1)) (FP.fin 5) = .error .GainLessThanZero ∧
    relative_strength_index (FP.fin 2) (FP.fin (-1)) = .error .LossLessThanZero ∧
    relative_strength_index (FP.fin 2) (FP.fin 0) = .ok (FP.fin 100) ∧
    relative_strength_index (FP.fin 60) (FP.fin 20)
      = .ok (FP.fin (100 - 100 / (1 + 60 / 20))) :=
  ⟨(rsi_spec (-1) 5).1 (by norm_num),
   (rsi_spec 2 (-1)).2.1 (by norm_num) (by norm_num),
   (rsi_spec 2 0).2.2.1 (by norm_num) rfl,
   (rsi_spec 60 20).2.2.2 (by norm_num) (by norm_num) (by norm_num)⟩

/-- C7: for every `gain ≥ 0` and `loss ≥ 0`, `relative_strength_index`
succeeds and its result lies in `[0, 100]`. -/
theorem rsi_bounds (gain loss : ℚ) (hg : 0 ≤ gain) (hl : 0 ≤ loss) :
    ∃ v : ℚ, relative_strength_index (FP.fin gain) (FP.fin loss) = .ok (FP.fin v)
      ∧ 0 ≤ v ∧ v ≤ 100 := by
  by_cases hz : loss = 0
  · exact ⟨100, (rsi_cases gain loss).2.2.1 hg hz, by norm_num, by norm_num⟩
  · refine ⟨100 - 100 / (1 + gain / loss),
      (rsi_cases gain loss).2.2.2 hg hl hz, ?_, ?_⟩
    · have h1 : 0 ≤ gain / loss := div_nonneg hg hl
      have h2 : 100 / (1 + gain / loss) ≤ 100 :=
        div_le_self (by norm_num) (by linarith)
      linarith
    · have h1 : 0 ≤ gain / loss := div_nonneg hg hl
      have h2 : 0 < 100 / (1 + gain / loss) := by positivity
      linarith

/-- Witness for C7 at `gain = 60`, `loss = 20`. -/
theorem rsi_bounds_witness :
    ∃ v : ℚ, relative_strength_index (FP.fin 60) (FP.fin 20) = .ok (FP.fin v)
      ∧ 0 ≤ v ∧ v ≤ 100 :=
  rsi_bounds 60 20 (by norm_num) (by norm_num)

/-- C8 counterexample: at `gain = loss = 0` (a non-negative pair with
`gain == loss`) the function returns 100, not 50, because the `loss == 0`
branch takes precedence. -/
theorem rsi_equal_zero_counterexample :
    relative_strength_index (FP.fin 0) (FP.fin 0) ≠ .ok (FP.fin 50) := by
  norm_num [relative_strength_index, lt_fin_fin, beq_fin_fin]

/-- C8 (amended): for every pair of non-negative values with
`gain == loss` and `loss ≠ 0`, `relative_strength_index` returns 50. -/
theorem rsi_equal_fifty (l : ℚ) (h0 : 0 ≤ l) (hne : l ≠ 0) :
    relative_strength_index (FP.fin l) (FP.fin l) = .ok (FP.fin 50) := by
  have h := (rsi_cases l l).2.2.2 h0 h0 hne
  rw [h, div_self hne]
  norm_num

/-- Witness for the amended C8 at `gain = loss = 1`. -/
theorem rsi_equal_fifty_witness :
    relative_strength_index (FP.fin 1) (FP.fin 1) = .ok (FP.fin 50) :=
  rsi_equal_fifty 1 (by norm_num) (by norm_num)

/-- C2: for every valid input with `low ≤ close ≤ high`,
`stochastic_oscillator` succeeds with a value in `[0, 100]`; it returns
exactly 50 when `high == low` and `100 × (close − low) / (high − low)`
otherwise. -/
theorem stochastic_oscillator_spec (close high low : ℚ)
    (h1 : low ≤ close) (h2 : close ≤ high) :
    (high = low →
      stochastic_oscillator (FP.fin close) (FP.fin high) (FP.fin low) = .ok (FP.fin 50)) ∧
    (high ≠ low →
      stochastic_oscillator (FP.fin close) (FP.fin high) (FP.fin low)
        = .ok (FP.fin (100 * (close - low) / (high - low)))) ∧
    ∃ v : ℚ, stochastic_oscillator (FP.fin close) (FP.fin high) (FP.fin low)
        = .ok (FP.fin v) ∧ 0 ≤ v ∧ v ≤ 100 := by
  have hnl : ¬ high < low := not_lt.mpr (h1.trans h2)
  have heq : ∀ h : high = low,
      stochastic_oscillator (FP.fin close) (FP.fin high) (FP.fin low) = .ok (FP.fin 50) :=
    fun h => by
      have h2' : close ≤ low := by rw [← h]; exact h2
      simp [stochastic_oscillator, lt_fin_fin, gt_fin_fin, beq_fin_fin, hnl,
        not_lt.mpr h2, not_lt.mpr h1, not_lt.mpr h2', h]
  have hne : ∀ h : high ≠ low,
      stochastic_oscillator (FP.fin close) (FP.fin high) (FP.fin low)
        = .ok (FP.fin (100 * (close - low) / (high - low))) :=
    fun h => by
      have hd : high - low ≠ 0 := sub_ne_zero.mpr h
      simp [stochastic_oscillator, lt_fin_fin, gt_fin_fin, beq_fin_fin, hnl,
        not_lt.mpr h2, not_lt.mpr h1, h, fin_sub_fin, fin_mul_fin, fin_div_fin, hd]
  refine ⟨heq, hne, ?_⟩
  by_cases h : high = low
  · exact ⟨50, heq h, by norm_num, by norm_num⟩
  · have hlt : low < high := lt_of_le_of_ne (h1.trans h2) (Ne.symm h)
    refine ⟨100 * (close - low) / (high - low), hne h, ?_, ?_⟩
    · apply div_nonneg
      · have : 0 ≤ close - low := by linarith
        positivity
      · linarith
    · rw [div_le_iff₀ (by linarith : (0 : ℚ) < high - low)]
      linarith

/-- Witness for C2 at `(close, high, low) = (80, 90, 50)` and the flat
range `(3, 3, 3)`. -/
theorem stochastic_oscillator_spec_witness :
    stochastic_oscillator (FP.fin 80) (FP.fin 90) (FP.fin 50)
      = .ok (FP.fin (100 * (80 - 50) / (90 - 50))) ∧
    stochastic_oscillator (FP.fin 3) (FP.fin 3) (FP.fin 3) = .ok (FP.fin 50) :=
  ⟨((stochastic_oscillator_spec 80 90 50 (by norm_num) (by norm_num)).2.1 (by norm_num)),
   ((stochastic_oscillator_spec 3 3 3 (by norm_num) (by norm_num)).1 rfl)⟩

/-- C3: for every valid input with `low ≤ close ≤ high`,
`williams_percent_r` succeeds with a value in `[−100, 0]`; it returns
exactly −50 when `high == low` and `−100 × (high − close) / (high − low)`
otherwise. -/
theorem williams_percent_r_spec (close high low : ℚ)
    (h1 : low ≤ close) (h2 : close ≤ high) :
    (high = low →
      williams_percent_r (FP.fin close) (FP.fin high) (FP.fin low) = .ok (FP.fin (-50))) ∧
    (high ≠ low →
      williams_percent_r (FP.fin close) (FP.fin high) (FP.fin low)
        = .ok (FP.fin (-100 * (high - close) / (high - low)))) ∧
    ∃ v : ℚ, williams_percent_r (FP.fin close) (FP.fin high) (FP.fin low)
        = .ok (FP.fin v) ∧ -100 ≤ v ∧ v ≤ 0 := by
  have hnl : ¬ high < low := not_lt.mpr (h1.trans h2)
  have heq : ∀ h : high = low,
      williams_percent_r (FP.fin close) (FP.fin high) (FP.fin low) = .ok (FP.fin (-50)) :=
    fun h => by
      have h2' : close ≤ low := by rw [← h]; exact h2
      simp [williams_percent_r, lt_fin_fin, gt_fin_fin, beq_fin_fin, hnl,
        not_lt.mpr h2, not_lt.mpr h1, not_lt.mpr h2', h]
  have hne : ∀ h : high ≠ low,
      williams_percent_r (FP.fin close) (FP.fin high) (FP.fin low)
        = .ok (FP.fin (-100 * (high - close) / (high - low))) :=
    fun h => by
      have hd : high - low ≠ 0 := sub_ne_zero.mpr h
      simp [williams_percent_r, lt_fin_fin, gt_fin_fin, beq_fin_fin, hnl,
        not_lt.mpr h2, not_lt.mpr h1, h, fin_sub_fin, fin_mul_fin, fin_div_fin, hd]
  refine ⟨heq, hne, ?_⟩
  by_cases h : high = low
  · exact ⟨-50, heq h, by norm_num, by norm_num⟩
  · have hlt : low < high := lt_of_le_of_ne (h1.trans h2) (Ne.symm h)
    refine ⟨-100 * (high - close) / (high - low), hne h, ?_, ?_⟩
    · rw [le_div_iff₀ (by linarith : (0 : ℚ) < high - low)]
      linarith
    · rw [div_le_iff₀ (by linarith : (0 : ℚ) < high - low)]
      nlinarith
/-- Witness for C3 at `(close, high, low) = (80, 90, 50)` and the flat
range `(3, 3, 3)`. -/
theorem williams_percent_r_spec_witness :
    williams_percent_r (FP.fin 80) (FP.fin 90) (FP.fin 50)
      = .ok (FP.fin (-100 * (90 - 80) / (90 - 50))) ∧
    williams_percent_r (FP.fin 3) (FP.fin 3) (FP.fin 3) = .ok (FP.fin (-50)) :=
  ⟨((williams_percent_r_spec 80 90 50 (by norm_num) (by norm_num)).2.1 (by norm_num)),
   ((williams_percent_r_spec 3 3 3 (by norm_num) (by norm_num)).1 rfl)⟩

/-- C6: in both `stochastic_oscillator` and `williams_percent_r`,
validation precedence is `high < low` (→ `HighLessThanLow`), then
`close > high` (→ `CloseGreaterThanHigh`), then `close < low`
(→ `CloseLessThanLow`); the earliest violated check's error is returned. -/
theorem momentum_validation_order (close high low : ℚ) :
    (high < low →
      stochastic_oscillator (FP.fin close) (FP.fin high) (FP.fin low)
          = .error .HighLessThanLow ∧
      williams_percent_r (FP.fin close) (FP.fin high) (FP.fin low)
          = .error .HighLessThanLow) ∧
    (¬ high < low → high < close →
      stochastic_oscillator (FP.fin close) (FP.fin high) (FP.fin low)
          = .error .CloseGreaterThanHigh ∧
      williams_percent_r (FP.fin close) (FP.fin high) (FP.fin low)
          = .error .CloseGreaterThanHigh) ∧
    (¬ high < low → ¬ high < close → close < low →
      stochastic_oscillator (FP.fin close) (FP.fin high) (FP.fin low)
          = .error .CloseLessThanLow ∧
      williams_percent_r (FP.fin close) (FP.fin high) (FP.fin low)
          = .error .CloseLessThanLow) := by
  refine ⟨fun h => ?_, fun h1 h2 => ?_, fun h1 h2 h3 => ?_⟩
  · constructor <;>
      simp [stochastic_oscillator, williams_percent_r, lt_fin_fin, h]
  · constructor <;>
      simp [stochastic_oscillator, williams_percent_r, lt_fin_fin, gt_fin_fin, h1, h2]
  · constructor <;>
      simp [stochastic_oscillator, williams_percent_r, lt_fin_fin, gt_fin_fin, h1, h2, h3]

/-- Witness for C6: `(100, 0, 100)` violates both the first and second
checks and gets `HighLessThanLow`; `(5, 3, 1)` gets `CloseGreaterThanHigh`;
`(0, 3, 1)` gets `CloseLessThanLow` — in both functions. -/
theorem momentum_validation_order_witness :
    stochastic_oscillator (FP.fin 100) (FP.fin 0) (FP.fin 100)
        = .error .HighLessThanLow ∧
    williams_percent_r (FP.fin 100) (FP.fin 0) (FP.fin 100)
        = .error .HighLessThanLow ∧
    stochastic_oscillator (FP.fin 5) (FP.fin 3) (FP.fin 1)
        = .error .CloseGreaterThanHigh ∧
    williams_percent_r (FP.fin 5) (FP.fin 3) (FP.fin 1)
        = .error .CloseGreaterThanHigh ∧
    stochastic_oscillator (FP.fin 0) (FP.fin 3) (FP.fin 1)
        = .error .CloseLessThanLow ∧
    williams_percent_r (FP.fin 0) (FP.fin 3) (FP.fin 1)
        = .error .CloseLessThanLow := by
  have ha := (momentum_validation_order 100 0 100).1 (by norm_num)
  have hb := (momentum_validation_order 5 3 1).2.1 (by norm_num) (by norm_num)
  have hc := (momentum_validation_order 0 3 1).2.2 (by norm_num) (by norm_num) (by norm_num)
  exact ⟨ha.1, ha.2, hb.1, hb.2, hc.1, hc.2⟩

/-- C4: with a previous value `old` and a non-empty sequence of length `n`,
`exponential_moving_average` returns `(last − old) × k + old` with
`k = 2 / (1 + n)`, and consults only the length and the last element: two
sequences of equal length with equal last element yield the same result. -/
theorem ema_previous_spec (slice : List FP) (h : slice ≠ []) (old : FP) :
    exponential_moving_average slice (some old)
      = .ok ((slice.getLast h - old)
              * (FP.fin 2 / (FP.fin 1 + FP.fin (slice.length : ℚ))) + old) ∧
    ∀ slice₂ : List FP, slice₂.length = slice.length → slice₂.getLast? = slice.getLast? →
      exponential_moving_average slice₂ (some old)
        = exponential_moving_average slice (some old) := by
  have hlen : slice.length ≠ 0 := fun hl => h (List.length_eq_zero.mp hl)
  have hlast : slice.getLast?.getD FP.nan = slice.getLast h := by
    rw [List.getLast?_eq_getLast slice h]
    rfl
  have hden : (1 : ℚ) + (slice.length : ℚ) ≠ 0 := by positivity
  constructor
  · rw [exponential_moving_average, if_neg hlen, hlast]
    cases hx : slice.getLast h - old with
    | nan => simp [FP.mul_def, FP.div_def, FP.mul, FP.div, fin_add_fin]
    | fin a =>
        simp only [fin_mul_fin, fin_add_fin, fin_div_fin, hden, if_false]
        rw [mul_div_assoc]
  · intro slice₂ hl hlast₂
    have hlen₂ : slice₂.length ≠ 0 := by rw [hl]; exact hlen
    rw [exponential_moving_average, exponential_moving_average,
      if_neg hlen, if_neg hlen₂, hlast₂, hl]

/-- Witness for C4: `[3, 7]` with `old = 1`, compared against `[5, 7]`
which has the same length and last element. -/
theorem ema_previous_spec_witness :
    exponential_moving_average [FP.fin 3, FP.fin 7] (some (FP.fin 1))
      = .ok ((FP.fin 7 - FP.fin 1) * (FP.fin 2 / (FP.fin 1 + FP.fin 2)) + FP.fin 1) ∧
    exponential_moving_average [FP.fin 5, FP.fin 7] (some (FP.fin 1))
      = exponential_moving_average [FP.fin 3, FP.fin 7] (some (FP.fin 1)) := by
  have h := ema_previous_spec [FP.fin 3, FP.fin 7] (by simp) (FP.fin 1)
  exact ⟨h.1, h.2 [FP.fin 5, FP.fin 7] rfl rfl⟩

/-- C5: for every sequence, `exponential_moving_average(sequence, None)`
returns exactly the same outcome as `simple_moving_average(sequence)`:
the same value on success and the same error (`SliceIsEmpty` on the empty
sequence) on failure. -/
theorem ema_none_eq_sma (slice : List FP) :
    exponential_moving_average slice none = simple_moving_average slice := by
  by_cases h : slice.length = 0
  · rw [exponential_moving_average, simple_moving_average, if_pos h, if_pos h]
  · rw [exponential_moving_average, if_neg h]

/-- C9: for every single-element sequence `[x]` and every previous value
`old`, the weighting factor is `k = 2 / (1 + 1) = 1` and the result is
exactly `x`, the last element. -/
theorem ema_singleton (x old : ℚ) :
    exponential_moving_average [FP.fin x] (some (FP.fin old)) = .ok (FP.fin x) := by
  norm_num [exponential_moving_average, fin_sub_fin, fin_mul_fin, fin_add_fin, fin_div_fin]

/-- C10: the validation comparisons are all strict and hence false on NaN,
so NaN arguments are never rejected: for `low ≤ high`,
`stochastic_oscillator(NaN, high, low)` and
`williams_percent_r(NaN, high, low)` succeed (with NaN when `high ≠ low`,
with the midpoint constants 50 / −50 when `high == low`), and
`relative_strength_index(NaN, 0)` returns `Ok(100)`. -/
theorem nan_never_rejected (high low : ℚ) (h : low ≤ high) :
    (high ≠ low →
      stochastic_oscillator FP.nan (FP.fin high) (FP.fin low) = .ok FP.nan ∧
      williams_percent_r FP.nan (FP.fin high) (FP.fin low) = .ok FP.nan) ∧
    (high = low →
      stochastic_oscillator FP.nan (FP.fin high) (FP.fin low) = .ok (FP.fin 50) ∧
      williams_percent_r FP.nan (FP.fin high) (FP.fin low) = .ok (FP.fin (-50))) ∧
    relative_strength_index FP.nan (FP.fin 0) = .ok (FP.fin 100) := by
  have hnl : ¬ high < low := not_lt.mpr h
  refine ⟨fun hne => ?_, fun heq => ?_, ?_⟩
  · constructor <;>
      simp [stochastic_oscillator, williams_percent_r, lt_fin_fin, beq_fin_fin,
        FP.gt, FP.lt, FP.sub_def, FP.mul_def, FP.div_def, FP.sub, FP.mul, FP.div,
        hnl, hne]
  · constructor <;>
      simp [stochastic_oscillator, williams_percent_r, lt_fin_fin, beq_fin_fin,
        FP.gt, FP.lt, hnl, heq]
  · rfl

/-- Witness for C10 at `(high, low) = (2, 1)` and at the flat range
`(1, 1)`. -/
theorem nan_never_rejected_witness :
    stochastic_oscillator FP.nan (FP.fin 2) (FP.fin 1) = .ok FP.nan ∧
    williams_percent_r FP.nan (FP.fin 2) (FP.fin 1) = .ok FP.nan ∧
    stochastic_oscillator FP.nan (FP.fin 1) (FP.fin 1) = .ok (FP.fin 50) ∧
    williams_percent_r FP.nan (FP.fin 1) (FP.fin 1) = .ok (FP.fin (-50)) ∧
    relative_strength_index FP.nan (FP.fin 0) = .ok (FP.fin 100) := by
  have h1 := nan_never_rejected 2 1 (by norm_num)
  have h2 := nan_never_rejected 1 1 (by norm_num)
  have ha := h1.1 (by norm_num)
  have hb := h2.2.1 rfl
  exact ⟨ha.1, ha.2, hb.1, hb.2, h1.2.2⟩
